import Mathlib

/-!
Verification of the tool registry, permission resolver, pattern filter,
workflows-as-tools synthesis, human-in-the-loop (HITL) deferred execution,
and user-data hiding of the knocklabs/agent-toolkit repository.

The TypeScript operations are shallowly embedded: JS objects whose key order
matters become ordered association lists, `undefined` becomes `Option.none`,
thrown errors become `Except.error`, and the effects of executors (network
calls to the Knock API) become explicit effect values.
-/

namespace AgentToolkit

/-! ## JS primitives

Helpers mirroring the JavaScript semantics the source relies on:
property lookup (`obj[key]`, `undefined` as `none`), string falsiness,
`String.prototype.split(".")` and first-occurrence `String.prototype.replace`.
-/

/-- JS property lookup `obj[key]` on an object modelled as an ordered
association list; `none` models `undefined`. -/
def jsLookup (m : List (String × α)) (key : String) : Option α :=
  (m.find? (fun e => e.1 == key)).map (fun e => e.2)

/-- JS string truthiness for an optional string: `undefined` and `""` are
falsy, every other string is truthy. -/
def jsTruthy : Option String → Bool
  | none => false
  | some s => s != ""

/-- JS property access `obj[k]` where `k` may be `undefined`: an `undefined`
key is coerced to the string `"undefined"`. -/
def jsIndexKey : Option String → String
  | none => "undefined"
  | some s => s

/-- Splits a character list at every occurrence of `sep`, keeping empty
groups, exactly as `String.prototype.split` does for a one-character
separator. `[]` yields `[[]]` (JS: `"".split(".") === [""]`). -/
def splitCharList (sep : Char) : List Char → List (List Char)
  | [] => [[]]
  | c :: rest =>
    let groups := splitCharList sep rest
    if c = sep then [] :: groups
    else
      match groups with
      | [] => [[c]]
      | g :: gs => (c :: g) :: gs

/-- JS `pattern.split(".")`. -/
def jsSplitDot (s : String) : List String :=
  (splitCharList '.' s.data).map (fun l => String.mk l)

/-- Replaces the first occurrence of `target` in a character list, as JS
`String.prototype.replace` does when called with a plain string pattern. -/
def replaceFirstChar (target repl : Char) : List Char → List Char
  | [] => []
  | c :: rest => if c = target then repl :: rest else c :: replaceFirstChar target repl rest

/-- JS `s.replace("-", "_")` for one-character pattern and replacement:
only the FIRST occurrence is replaced. -/
def jsReplaceFirst (s : String) (target repl : Char) : String :=
  String.mk (replaceFirstChar target repl s.data)

/-- JS `Map.prototype.set`: overwrite in place when the key exists,
append otherwise. -/
def mapSet (m : List (String × α)) (k : String) (v : α) : List (String × α) :=
  if (m.find? (fun e => e.1 == k)).isSome then
    m.map (fun e => if e.1 == k then (k, v) else e)
  else m ++ [(k, v)]

/-! ## Tool descriptors and the category registry

`KnockTool` descriptors (src/lib/knock-tool.ts) carry
`method`, `name`, `description`, `fullDescription`, `parameters` and
`bindExecute`. The registry, permission and filtering layers inspect only
`method` and move the rest around opaquely, so the embedded descriptor
retains the `method` and display `name` fields and elides the opaque rest. -/

/-- A tool descriptor as the registry and filtering layers see it. -/
structure KTool where
  method : String
  name : String
deriving DecidableEq, Repr

/-- One category: the JS object mapping export key (e.g. `getUser`) to its
descriptor, in declaration order. -/
abbrev CategoryTools := List (String × KTool)

/-- The `tools` record of src/lib/tools/index.ts: category name to category
object, in declaration order. -/
abbrev ToolRegistry := List (String × CategoryTools)

/-- The `broadcasts` export of tools/broadcasts.ts. -/
def broadcastsTools : CategoryTools :=
  [ ("listBroadcasts", ⟨"list_broadcasts", "List broadcasts"⟩),
    ("getBroadcast", ⟨"get_broadcast", "Get broadcast"⟩),
    ("upsertBroadcast", ⟨"upsert_broadcast", "Upsert broadcast"⟩),
    ("sendBroadcast", ⟨"send_broadcast", "Send broadcast"⟩),
    ("cancelBroadcast", ⟨"cancel_broadcast", "Cancel broadcast"⟩) ]

/-- The `channels` export of tools/channels.ts. -/
def channelsTools : CategoryTools :=
  [ ("listChannels", ⟨"list_channels", "List channels"⟩) ]

/-- The `commits` export of tools/commits.ts. -/
def commitsTools : CategoryTools :=
  [ ("listCommits", ⟨"list_commits", "List commits"⟩),
    ("commitAllChanges", ⟨"commit_all_changes", "Commit all changes"⟩),
    ("promoteAllCommits", ⟨"promote_all_commits", "Promote all commits"⟩) ]

/-- The `documentation` export of tools/documentation.ts. -/
def documentationTools : CategoryTools :=
  [ ("searchDocumentation", ⟨"search_documentation", "Search documentation"⟩) ]

/-- The `emailLayouts` export of tools/email-layouts.ts. -/
def emailLayoutsTools : CategoryTools :=
  [ ("listEmailLayouts", ⟨"list_email_layouts", "List email layouts"⟩),
    ("createOrUpdateEmailLayout",
      ⟨"create_or_update_email_layout", "Create or update email layout"⟩) ]

/-- The `environments` export of tools/environments.ts. -/
def environmentsTools : CategoryTools :=
  [ ("listEnvironments", ⟨"list_environments", "List environments"⟩) ]

/-- The `guides` export of tools/guides.ts. -/
def guidesTools : CategoryTools :=
  [ ("listGuides", ⟨"list_guides", "List guides"⟩),
    ("getGuide", ⟨"get_guide", "Get guide"⟩),
    ("createOrUpdateGuide", ⟨"upsert_guide", "Upsert guide"⟩) ]

/-- The `messages` export of tools/messages.ts. -/
def messagesTools : CategoryTools :=
  [ ("getMessage", ⟨"get_message", "Get message"⟩),
    ("getMessageContent", ⟨"get_message_content", "Get message content"⟩),
    ("getMessageDeliveryLogs", ⟨"get_message_delivery_logs", "Get message delivery logs"⟩),
    ("getMessageEvents", ⟨"get_message_events", "Get message events"⟩) ]

/-- The `messageTypes` export of tools/message-types.ts. -/
def messageTypesTools : CategoryTools :=
  [ ("listMessageTypes", ⟨"list_message_types", "List message types"⟩),
    ("createOrUpdateMessageType",
      ⟨"create_or_update_message_type", "Create or update message type"⟩) ]

/-- The `objects` export of tools/objects.ts. -/
def objectsTools : CategoryTools :=
  [ ("listObjects", ⟨"list_objects", "List objects"⟩),
    ("getObject", ⟨"get_object", "Get object"⟩),
    ("createOrUpdateObject", ⟨"create_or_update_object", "Create or update object"⟩),
    ("deleteObject", ⟨"delete_object", "Delete object"⟩),
    ("subscribeUsersToObject", ⟨"subscribe_users_to_object", "Subscribe users to object"⟩),
    ("unsubscribeUsersFromObject",
      ⟨"unsubscribe_users_from_object", "Unsubscribe users from object"⟩) ]

/-- The `partials` export of tools/partials.ts (note: the export object lists
`getPartial` before `listPartials`, unlike the declaration order). -/
def partialsTools : CategoryTools :=
  [ ("getPartial", ⟨"get_partial", "Get partial"⟩),
    ("listPartials", ⟨"list_partials", "List partials"⟩),
    ("createOrUpdatePartial", ⟨"upsert_partial", "Upsert partial"⟩) ]

/-- The `tenants` export of tools/tenants.ts. -/
def tenantsTools : CategoryTools :=
  [ ("getTenant", ⟨"get_tenant", "Get tenant"⟩),
    ("setTenant", ⟨"set_tenant", "Set tenant"⟩),
    ("deleteTenant", ⟨"delete_tenant", "Delete tenant"⟩) ]

/-- The `users` export of tools/users.ts. -/
def usersTools : CategoryTools :=
  [ ("getUser", ⟨"get_user", "Get user"⟩),
    ("createOrUpdateUser", ⟨"upsert_user", "Create or update user"⟩),
    ("getUserPreferences", ⟨"get_user_preferences", "Get user preferences"⟩),
    ("setUserPreferences", ⟨"set_user_preferences", "Set user preferences"⟩),
    ("getUserMessages", ⟨"get_user_messages", "Get user messages"⟩) ]

/-- The `workflows` export of tools/workflows.ts. -/
def workflowsTools : CategoryTools :=
  [ ("listWorkflows", ⟨"list_workflows", "List workflows"⟩),
    ("getWorkflow", ⟨"get_workflow", "Get workflow"⟩),
    ("triggerWorkflow", ⟨"trigger_workflow", "Trigger workflow"⟩),
    ("createEmailWorkflow", ⟨"create_rich_email_workflow", "Create rich email workflow"⟩),
    ("createOneOffWorkflowSchedule",
      ⟨"create_one_off_workflow_schedule", "Create one-off workflow schedule"⟩) ]

/-- The `tools` record of src/lib/tools/index.ts, in declaration order. -/
def knockTools : ToolRegistry :=
  [ ("broadcasts", broadcastsTools),
    ("channels", channelsTools),
    ("commits", commitsTools),
    ("documentation", documentationTools),
    ("emailLayouts", emailLayoutsTools),
    ("environments", environmentsTools),
    ("guides", guidesTools),
    ("messages", messagesTools),
    ("messageTypes", messageTypesTools),
    ("objects", objectsTools),
    ("partials", partialsTools),
    ("tenants", tenantsTools),
    ("users", usersTools),
    ("workflows", workflowsTools) ]

/-- The category names of `knockTools`, in declaration order. -/
def knockCategoryNames : List String := knockTools.map (fun e => e.1)

/-- The `toolPermissions` record of src/lib/tools/index.ts: for each
category, the permission bucket map (bucket name to export-key list). -/
def knockToolPermissions : List (String × List (String × List String)) :=
  [ ("broadcasts",
      [ ("read", ["listBroadcasts", "getBroadcast"]),
        ("manage", ["upsertBroadcast", "sendBroadcast", "cancelBroadcast"]) ]),
    ("channels", [ ("read", ["listChannels"]) ]),
    ("commits",
      [ ("read", ["listCommits"]),
        ("manage", ["commitAllChanges", "promoteAllCommits"]) ]),
    ("documentation", [ ("read", ["searchDocumentation"]) ]),
    ("emailLayouts",
      [ ("read", ["listEmailLayouts"]),
        ("manage", ["createOrUpdateEmailLayout"]) ]),
    ("environments", [ ("read", ["listEnvironments"]) ]),
    ("guides",
      [ ("read", ["listGuides", "getGuide"]),
        ("manage", ["createOrUpdateGuide"]) ]),
    ("messages",
      [ ("read",
          ["getMessage", "getMessageContent", "getMessageDeliveryLogs", "getMessageEvents"]) ]),
    ("messageTypes",
      [ ("read", ["listMessageTypes"]),
        ("manage", ["createOrUpdateMessageType"]) ]),
    ("objects",
      [ ("read", ["listObjects", "getObject"]),
        ("manage",
          ["createOrUpdateObject", "deleteObject", "subscribeUsersToObject",
           "unsubscribeUsersFromObject"]) ]),
    ("partials",
      [ ("read", ["getPartial", "listPartials"]),
        ("manage", ["createOrUpdatePartial"]) ]),
    ("tenants",
      [ ("read", ["getTenant"]),
        ("manage", ["setTenant", "deleteTenant"]) ]),
    ("users",
      [ ("read", ["getUser", "getUserMessages", "getUserPreferences"]),
        ("manage", ["createOrUpdateUser", "setUserPreferences"]) ]),
    ("workflows",
      [ ("read", ["listWorkflows", "getWorkflow"]),
        ("manage", ["createEmailWorkflow", "createOneOffWorkflowSchedule"]),
        ("run", ["triggerWorkflow"]) ]) ]

/-! ## Pattern filter (src/lib/utils.ts, `filterTools`) -/

/-- The errors `filterTools` can throw. `typeError` models the implicit JS
`TypeError` raised by the final `tools[category][tool]` when
`tools[category]` is `undefined` (reachable only for patterns whose category
part is falsy, which the explicit guards skip). -/
inductive FilterError where
  | noPatternProvided : FilterError
  | categoryNotFound (category : String) : FilterError
  | toolNotFound (pattern : String) : FilterError
  | typeError : FilterError
deriving DecidableEq, Repr

/-- `Object.values(tools).flatMap((category) => Object.values(category))`. -/
def allToolValues (tools : ToolRegistry) : List KTool :=
  (tools.map (fun c => c.2.map (fun t => t.2))).flatten

/-- Embedding of `filterTools` (src/lib/utils.ts). The result elements are
`Option KTool` because the final unguarded lookup `tools[category][tool]`
can put `undefined` into the returned singleton list. -/
def filterTools (tools : ToolRegistry) (pattern : Option String) :
    Except FilterError (List (Option KTool)) :=
  match pattern with
  | none => Except.error FilterError.noPatternProvided
  | some p =>
    if p = "" then Except.error FilterError.noPatternProvided
    else if p = "*" then Except.ok ((allToolValues tools).map Option.some)
    else
      let parts := jsSplitDot p
      let category := parts.headD ""
      let tool : Option String := parts[1]?
      if category = "*" ∧ tool = some "*" then
        Except.ok ((allToolValues tools).map Option.some)
      else if category ≠ "" ∧ jsLookup tools category = none then
        Except.error (FilterError.categoryNotFound category)
      else if category ≠ "" ∧ tool = some "*" then
        Except.ok (((jsLookup tools category).getD []).map (fun t => some t.2))
      else if category ≠ "" ∧ jsTruthy tool = true ∧
          jsLookup ((jsLookup tools category).getD []) (jsIndexKey tool) = none then
        Except.error (FilterError.toolNotFound p)
      else
        match jsLookup tools category with
        | none => Except.error FilterError.typeError
        | some categoryTools => Except.ok [jsLookup categoryTools (jsIndexKey tool)]

/-! ## Permission resolver (src/lib/utils.ts, `getToolsWithPermissions`) -/

/-- A value of the caller-supplied permission grant for one bucket:
`boolean | string[] | undefined`. -/
inductive PermValue where
  | bool (b : Bool) : PermValue
  | list (keys : List String) : PermValue
  | undef : PermValue
deriving DecidableEq, Repr

/-- The guard
`(Array.isArray(hasPermission) && hasPermission.length > 0) || hasPermission === true`. -/
def permGranted : PermValue → Bool
  | PermValue.bool b => b
  | PermValue.list keys => !keys.isEmpty
  | PermValue.undef => false

/-- One step of the reduce inside `getToolsWithPermissions`, made explicit
in the two module-level tables the function reads (`tools[category]` and
`toolPermissions[category]`; the unit tests exercise the function against
mocked tables in exactly this way). A granted bucket concatenates its
export-key list mapped through the category's tool object onto the
accumulator. A granted bucket name absent from the permission table makes
the JS crash (`undefined.map`), modelled as `none`; an export key absent
from the tool object puts `undefined` (`Option.none`) into the output. -/
def permStep (toolsInCategory : List (String × KTool))
    (toolPermissionsInCategory : List (String × List String))
    (acc : Option (List (Option KTool))) (entry : String × PermValue) :
    Option (List (Option KTool)) :=
  match acc with
  | none => none
  | some l =>
    if permGranted entry.2 then
      match jsLookup toolPermissionsInCategory entry.1 with
      | none => none
      | some toolNames =>
          some (l ++ toolNames.map (fun toolName => jsLookup toolsInCategory toolName))
    else some l

/-- The reduce of `getToolsWithPermissions` as a fold of `permStep` over the
grant entries, starting from the empty accumulator. -/
def getToolsWithPermissionsIn (toolsInCategory : List (String × KTool))
    (toolPermissionsInCategory : List (String × List String))
    (categoryPermissions : List (String × PermValue)) : Option (List (Option KTool)) :=
  categoryPermissions.foldl (permStep toolsInCategory toolPermissionsInCategory) (some [])

/-- `getToolsWithPermissions` against the real module-level `tools` and
`toolPermissions` tables of src/lib/tools/index.ts. -/
def getToolsWithPermissions (category : String)
    (categoryPermissions : List (String × PermValue)) : Option (List (Option KTool)) :=
  getToolsWithPermissionsIn ((jsLookup knockTools category).getD [])
    ((jsLookup knockToolPermissions category).getD []) categoryPermissions

/-- The contribution of one grant entry to the resolved list: the granted
bucket's export keys looked up in the category object, nothing otherwise. -/
def bucketContribution (toolsInCategory : List (String × KTool))
    (toolPermissionsInCategory : List (String × List String))
    (entry : String × PermValue) : List (Option KTool) :=
  if permGranted entry.2 then
    ((jsLookup toolPermissionsInCategory entry.1).getD []).map
      (fun toolName => jsLookup toolsInCategory toolName)
  else []

/-! ## Flattened all-descriptors view (src/lib/tools/index.ts, `allTools`) -/

/-- JS object spread `{...a, ...b}`: keys of `a` in order (overwritten keys
keep their position but take the value from `b`), then the keys of `b` not
already in `a`, in order. -/
def jsSpread2 (a b : List (String × KTool)) : List (String × KTool) :=
  (a.map (fun e =>
    match jsLookup b e.1 with
    | some v => (e.1, v)
    | none => e)) ++ b.filter (fun e => (jsLookup a e.1).isNone)

/-- Iterated object spread `{...m₁, ..., ...mₙ}`. -/
def jsSpreadAll (maps : List (List (String × KTool))) : List (String × KTool) :=
  maps.foldl jsSpread2 []

/-- The `allTools` export of src/lib/tools/index.ts: the spread of every
category object, in that file's spread order (note: `guides`, then
`messageTypes`, then `messages`). -/
def allTools : List (String × KTool) :=
  jsSpreadAll
    [ broadcastsTools, channelsTools, commitsTools, documentationTools,
      emailLayoutsTools, environmentsTools, guidesTools, messageTypesTools,
      messagesTools, objectsTools, partialsTools, tenantsTools, usersTools,
      workflowsTools ]

/-! ## Workflows as tools (src/lib/tools/workflows-as-tools.ts) -/

/-- Toolkit configuration fields the modelled executors read
(src/types.ts, `Config`): optional values model the optional TS fields. -/
structure KConfig where
  userId : Option String
  tenantId : Option String
  environment : Option String
  hideUserData : Option Bool
deriving DecidableEq, Repr

/-- A workflow resource as returned by the external management-API listing,
restricted to the fields `workflowAsTool` reads. -/
structure KWorkflow where
  key : String
  name : String
  description : Option String
deriving DecidableEq, Repr

/-- The input of a synthesized trigger tool. Recipients are modelled as
optional strings because the executor builds `[config.userId]` and
`config.userId` may be `undefined`; `data` is carried opaquely. -/
structure WTriggerParams where
  environment : Option String
  actor : Option String
  recipients : Option (List (Option String))
  data : Option String
  tenant : Option String

/-- The observable effect of a synthesized trigger tool's executor: the
`publicClient.workflows.trigger(workflow.key, {...})` call it issues. -/
structure WTriggerCall where
  key : String
  recipients : List (Option String)
  actor : Option String
  data : Option String
  tenant : Option String
deriving DecidableEq, Repr

/-- A synthesized workflow-trigger descriptor: its derived `method` and
`name`, and its executor, modelled as the trigger call it issues for a given
config and input (the source executor returns the resulting
`workflow_run_id`, an external response). -/
structure WTool where
  method : String
  name : String
  execute : KConfig → WTriggerParams → WTriggerCall

/-- Embedding of `workflowAsTool`: the `method` is
`` `trigger_${workflow.key.replace("-", "_")}_workflow` `` (JS `replace`
with a string pattern replaces only the first `-`), and the executor closes
over `workflow`, triggering `workflow.key` with
`recipients: params.recipients ?? [config.userId]` and
`tenant: params.tenant ?? config.tenantId`. -/
def workflowAsTool (workflow : KWorkflow) : WTool :=
  { method := "trigger_" ++ jsReplaceFirst workflow.key '-' '_' ++ "_workflow"
    name := "Trigger " ++ workflow.name ++ " workflow"
    execute := fun config params =>
      { key := workflow.key
        recipients := params.recipients.getD [config.userId]
        actor := params.actor
        data := params.data
        tenant := params.tenant.orElse (fun _ => config.tenantId) } }

/-- The filtering loop of `createWorkflowTools`: keep a listed workflow
unless a key allow-list is present and does not contain its key
(the `continue` branch). -/
def selectWorkflows (workflowKeysToInclude : Option (List String)) :
    List KWorkflow → List KWorkflow
  | [] => []
  | w :: rest =>
    let tail := selectWorkflows workflowKeysToInclude rest
    match workflowKeysToInclude with
    | some keys => if keys.contains w.key then w :: tail else tail
    | none => w :: tail

/-- Embedding of `createWorkflowTools`: `listing` stands for the stream the
external collaborator `knockClient.workflows.list` yields, in arrival
order. -/
def createWorkflowTools (listing : List KWorkflow)
    (workflowKeysToInclude : Option (List String)) : List WTool :=
  (selectWorkflows workflowKeysToInclude listing).map workflowAsTool

/-! ## User tools (src/lib/tools/users.ts) -/

/-- A user object as returned by the public API, restricted to the fields
named by the tool descriptions; further custom properties are carried in
`properties`. -/
structure KUser where
  id : String
  email : Option String
  name : Option String
  phone_number : Option String
  properties : List (String × String)
deriving DecidableEq, Repr

/-- What a user tool returns to the LLM: either the full user object or the
`{ id: user.id }` projection. -/
inductive UserToolResult where
  | fullUser (user : KUser) : UserToolResult
  | idOnly (id : String) : UserToolResult
deriving DecidableEq, Repr

/-- Embedding of `maybeHideUserData` (its `hideUserData` parameter defaults
to `false` at the call sites when `config.hideUserData` is `undefined`). -/
def maybeHideUserData (user : KUser) (hideUserData : Bool) : UserToolResult :=
  if hideUserData then UserToolResult.idOnly user.id else UserToolResult.fullUser user

/-- The result of the `get_user` executor, parameterized by the user object
the external call `publicClient.users.get(...)` returned. -/
def getUserExecute (config : KConfig) (fetchedUser : KUser) : UserToolResult :=
  maybeHideUserData fetchedUser (config.hideUserData.getD false)

/-- The result of the `upsert_user` executor, parameterized by the user
object the external call `publicClient.users.identify(...)` returned. -/
def createOrUpdateUserExecute (config : KConfig) (identifiedUser : KUser) : UserToolResult :=
  maybeHideUserData identifiedUser (config.hideUserData.getD false)

/-! ## Human-in-the-loop deferred execution (src/ai-sdk/index.ts and
src/lib/human-in-the-loop/index.ts) -/

/-- A tool input payload, modelled as a JSON-ish record. -/
abbrev ToolArgs := List (String × String)

/-- The AI-SDK `ToolExecutionOptions` field the wrapper reads. -/
structure ToolExecutionOptions where
  toolCallId : String
deriving DecidableEq, Repr

/-- The `DeferredToolCall` structure built at invocation time:
`{ method, args, extra: { toolCallId: options.toolCallId } }`. -/
structure DeferredToolCall where
  method : String
  args : ToolArgs
  extra : ToolExecutionOptions
deriving DecidableEq, Repr

/-- Opaque caller metadata attached to the HITL workflow trigger. -/
abbrev HitlMetadata := List (String × String)

/-- The workflow trigger payload
`{ type: "deferred_tool_call", tool_call, metadata }`. -/
structure DeferredToolCallWorkflowData where
  type : String
  tool_call : DeferredToolCall
  metadata : Option HitlMetadata
deriving DecidableEq, Repr

/-- An observable effect of running a (wrapped or unwrapped) tool executor:
either the Knock workflow trigger the HITL path issues, or an abstract
effect of an underlying executor. -/
inductive Effect where
  | workflowTrigger (workflow : String) (data : DeferredToolCallWorkflowData)
      (recipients : List String) (tenant : Option String) (actor : Option String) : Effect
  | opaqueEffect (tag : Nat) : Effect
deriving DecidableEq, Repr

/-- Values returned by tool executions: the HITL status objects
(`{type: "tool-status", status: "pending-input" | "completed", ...}`) or an
opaque result of an underlying executor. -/
inductive ToolValue where
  | raw (s : String) : ToolValue
  | pendingStatus (toolCallId : String) : ToolValue
  | completedStatus (toolCallId : String) (result : ToolValue) : ToolValue
deriving DecidableEq, Repr

/-- An AI-SDK tool as the wrapper sees it: an optional description and an
optional executor. The executor is modelled by the effect trace it produces
and the value it returns. -/
structure AiTool where
  description : Option String
  execute : Option (ToolArgs → ToolExecutionOptions → List Effect × ToolValue)

/-- The HITL request configuration (`DeferredToolCallConfig`). The optional
hooks are modelled as effect emitters run around the Knock call; in the
source `onAfterCallKnock` also receives the Knock trigger response, which
does not influence the wrapper's own behavior. -/
structure DeferredToolCallConfig where
  workflow : String
  metadata : Option HitlMetadata
  recipients : List String
  tenant : Option String
  actor : Option String
  onBeforeCallKnock : Option (DeferredToolCall → List Effect)
  onAfterCallKnock : Option (DeferredToolCall → List Effect)

/-- Embedding of `wrapToolDescription`
(src/lib/human-in-the-loop/index.ts). -/
def wrapToolDescription (description : String) : String :=
  description ++ "\n\nThis tool call is deferred. You will NOT receive a result from this tool but this is NOT an error. Do NOT retry the tool call as the result will be the same. The tool call result will be provided to you in the future."

/-- Embedding of `triggerHumanInTheLoopWorkflow` as the effect trace it
produces: optional before-hook effects, the
`knock.workflows.trigger(inputConfig.workflow, { data: { type:
"deferred_tool_call", tool_call, metadata }, recipients, tenant, actor })`
call, then optional after-hook effects. -/
def triggerHumanInTheLoopWorkflow (toolCall : DeferredToolCall)
    (inputConfig : DeferredToolCallConfig) : List Effect :=
  (match inputConfig.onBeforeCallKnock with
    | some hook => hook toolCall
    | none => [])
  ++ [Effect.workflowTrigger inputConfig.workflow
        ⟨"deferred_tool_call", toolCall, inputConfig.metadata⟩
        inputConfig.recipients inputConfig.tenant inputConfig.actor]
  ++ (match inputConfig.onAfterCallKnock with
    | some hook => hook toolCall
    | none => [])

/-- The executor `requireHumanInput` installs on a wrapped tool: build the
`DeferredToolCall`, await the HITL workflow trigger, and return
`{ type: "tool-status", status: "pending-input", toolCallId }`. Note it is a
function of the method name and the input config only — never of the
original tool. -/
def wrappedExecute (method : String) (inputConfig : DeferredToolCallConfig)
    (input : ToolArgs) (options : ToolExecutionOptions) : List Effect × ToolValue :=
  let toolExecution : DeferredToolCall := ⟨method, input, ⟨options.toolCallId⟩⟩
  (triggerHumanInTheLoopWorkflow toolExecution inputConfig,
   ToolValue.pendingStatus options.toolCallId)

/-- The wrapped tool `requireHumanInput` builds for one entry: the original
tool with its description augmented (`toolToWrap.description ?? ""`) and its
executor replaced. -/
def wrapTool (method : String) (toolToWrap : AiTool)
    (inputConfig : DeferredToolCallConfig) : AiTool :=
  { toolToWrap with
    description := some (wrapToolDescription (toolToWrap.description.getD ""))
    execute := some (wrappedExecute method inputConfig) }

/-- Embedding of `requireHumanInput` (src/ai-sdk/index.ts): iterates the
entries of `toolsToWrap`, stores a copy of each original tool in the
`wrappedToolsRequiringInput` side table (`Map.set`), and collects the
wrapped tools. Returns the updated side table and the wrapped tool set. -/
def requireHumanInput (sideTable : List (String × AiTool))
    (toolsToWrap : List (String × AiTool)) (inputConfig : DeferredToolCallConfig) :
    List (String × AiTool) × List (String × AiTool) :=
  toolsToWrap.foldl
    (fun acc entry =>
      (mapSet acc.1 entry.1 entry.2,
       acc.2 ++ [(entry.1, wrapTool entry.1 entry.2 inputConfig)]))
    (sideTable, [])

/-- The errors `resumeToolExecution` can throw. -/
inductive ResumeError where
  | deferredCallNotFound (method : String) : ResumeError
  | noExecuteMethod (method : String) : ResumeError
deriving DecidableEq, Repr

/-- Embedding of `resumeToolExecution` (src/ai-sdk/index.ts): look the
method up in the side table; fail with the "not found — did you forget to
wrap the tool" error if absent; fail if the stored tool has no executor;
otherwise run the original executor on the recovered `args` and `extra` and
package the result as `{ type: "tool-status", status: "completed",
toolCallId: options.toolCallId, result }`. -/
def resumeToolExecution (sideTable : List (String × AiTool))
    (toolInteraction : DeferredToolCall) : Except ResumeError (List Effect × ToolValue) :=
  match jsLookup sideTable toolInteraction.method with
  | none => Except.error (ResumeError.deferredCallNotFound toolInteraction.method)
  | some tool =>
    match tool.execute with
    | none => Except.error (ResumeError.noExecuteMethod toolInteraction.method)
    | some exec =>
      let out := exec toolInteraction.args toolInteraction.extra
      Except.ok (out.1, ToolValue.completedStatus toolInteraction.extra.toolCallId out.2)

/-- Decidable equality for `Except`, so that evaluations of the embedded
fallible operations on concrete inputs can be settled by `decide`. -/
instance {ε α : Type} [DecidableEq ε] [DecidableEq α] : DecidableEq (Except ε α) := fun x y =>
  match x, y with
  | Except.ok a, Except.ok b =>
    if h : a = b then Decidable.isTrue (by rw [h])
    else Decidable.isFalse (by intro hc; cases hc; exact h rfl)
  | Except.error a, Except.error b =>
    if h : a = b then Decidable.isTrue (by rw [h])
    else Decidable.isFalse (by intro hc; cases hc; exact h rfl)
  | Except.ok _, Except.error _ => Decidable.isFalse (by intro hc; cases hc)
  | Except.error _, Except.ok _ => Decidable.isFalse (by intro hc; cases hc)

/-! ## Concrete instances used by counterexamples -/

/-- The methods contributed by looking a list of export keys up in a
category object (dropping unresolved keys, keeping order). -/
def lookedUpMethods (toolsInCategory : List (String × KTool))
    (exportKeys : List String) : List String :=
  ((exportKeys.map (fun n => jsLookup toolsInCategory n)).filterMap id).map KTool.method

/-- The methods contributed by one grant entry (the resolved descriptors of
its bucket when granted, with unresolved keys dropped). -/
def contribMethods (toolsInCategory : List (String × KTool))
    (toolPermissionsInCategory : List (String × List String))
    (entry : String × PermValue) : List String :=
  ((bucketContribution toolsInCategory toolPermissionsInCategory entry).filterMap id).map
    KTool.method

/-- A two-tool category used to exercise the resolver on overlapping
permission buckets, as the unit tests exercise it on mocked tables. -/
def overlapTools : List (String × KTool) :=
  [("toolA", ⟨"method_a", "Tool A"⟩), ("toolB", ⟨"method_b", "Tool B"⟩)]

/-- A permission table whose two buckets overlap on `toolB`. -/
def overlapPermissions : List (String × List String) :=
  [("read", ["toolA", "toolB"]), ("manage", ["toolB"])]

/-- A grant enabling both overlapping buckets. -/
def overlapGrant : List (String × PermValue) :=
  [("read", PermValue.bool true), ("manage", PermValue.bool true)]

/-- Two single-tool categories defining the same export key and the same
method, used to exercise the `allTools` spread on a method collision. -/
def collideCatA : List (String × KTool) :=
  [("sharedTool", ⟨"shared_method", "From category A"⟩)]

/-- The second of the two colliding categories. -/
def collideCatB : List (String × KTool) :=
  [("sharedTool", ⟨"shared_method", "From category B"⟩)]

/-- A concrete tool with a real executor, used to exercise the HITL wrap
and resume round trip. -/
def hitlOriginalTool : AiTool :=
  { description := some "original description"
    execute := some (fun _ _ => ([Effect.opaqueEffect 1], ToolValue.raw "executed")) }

/-- A concrete HITL request configuration. -/
def hitlConfig : DeferredToolCallConfig :=
  { workflow := "approve-tool-call"
    metadata := none
    recipients := ["admin_1"]
    tenant := none
    actor := none
    onBeforeCallKnock := none
    onAfterCallKnock := none }

/-- A deferred call whose method was wrapped. -/
def hitlDeferredCall : DeferredToolCall := ⟨"toolX", [("arg", "v")], ⟨"call_1"⟩⟩

/-- A deferred call whose method was never wrapped. -/
def hitlUnknownCall : DeferredToolCall := ⟨"toolY", [], ⟨"call_2"⟩⟩

/-! ## Helper lemmas -/

theorem jsLookup_nil (key : String) : jsLookup ([] : List (String × α)) key = none := rfl

theorem jsLookup_cons (e : String × α) (m : List (String × α)) (key : String) :
    jsLookup (e :: m) key = if e.1 = key then some e.2 else jsLookup m key := by
  by_cases h : e.1 = key <;> simp [jsLookup, List.find?_cons, h]

theorem jsLookup_mem {m : List (String × α)} {key : String} {v : α}
    (h : jsLookup m key = some v) : (key, v) ∈ m := by
  induction m with
  | nil => simp [jsLookup] at h
  | cons e rest ih =>
    rw [jsLookup_cons] at h
    by_cases he : e.1 = key
    · rw [if_pos he] at h
      obtain ⟨k, w⟩ := e
      simp only at he h
      subst he
      cases h
      exact List.mem_cons_self _ _
    · rw [if_neg he] at h
      exact List.mem_cons_of_mem _ (ih h)

theorem jsLookup_append (m₁ m₂ : List (String × α)) (key : String) :
    jsLookup (m₁ ++ m₂) key
      = match jsLookup m₁ key with
        | some v => some v
        | none => jsLookup m₂ key := by
  induction m₁ with
  | nil => simp [jsLookup]
  | cons e rest ih =>
    by_cases h : e.1 = key <;> simp [jsLookup_cons, h, ih]

theorem jsLookup_replaceMap_self (m : List (String × α)) (k : String) (v : α) :
    jsLookup (m.map (fun e => if e.1 = k then (k, v) else e)) k
      = (jsLookup m k).map (fun _ => v) := by
  induction m with
  | nil => simp [jsLookup]
  | cons e rest ih =>
    simp only [List.map_cons]
    by_cases hek : e.1 = k
    · simp [jsLookup_cons, hek]
    · simp [jsLookup_cons, hek, ih]

theorem jsLookup_replaceMap_ne (m : List (String × α)) (k : String) (v : α) (k' : String)
    (hne : k' ≠ k) : jsLookup (m.map (fun e => if e.1 = k then (k, v) else e)) k'
      = jsLookup m k' := by
  have hkk' : ¬(k = k') := fun h => hne h.symm
  induction m with
  | nil => rfl
  | cons e rest ih =>
    simp only [List.map_cons]
    by_cases hek : e.1 = k
    · simp [jsLookup_cons, hek, hkk', ih]
    · by_cases hek' : e.1 = k'
      · simp [jsLookup_cons, hek, hek', hne, ih]
      · simp [jsLookup_cons, hek, hek', hne, ih]

theorem jsLookup_isSome_of_find? {m : List (String × α)} {k : String}
    (h : (m.find? (fun e => e.1 == k)).isSome = true) : (jsLookup m k).isSome = true := by
  unfold jsLookup
  obtain ⟨e, he⟩ := Option.isSome_iff_exists.mp h
  rw [he]
  rfl

theorem jsLookup_mapSet_self (m : List (String × α)) (k : String) (v : α) :
    jsLookup (mapSet m k v) k = some v := by
  unfold mapSet
  by_cases h : (m.find? (fun e => e.1 == k)).isSome
  · rw [if_pos h]
    simp only [beq_iff_eq]
    rw [jsLookup_replaceMap_self]
    obtain ⟨w, hw⟩ := Option.isSome_iff_exists.mp (jsLookup_isSome_of_find? h)
    rw [hw]
    rfl
  · rw [if_neg h, jsLookup_append]
    have hm : jsLookup m k = none := by
      unfold jsLookup
      rw [Option.not_isSome_iff_eq_none.mp h]
      rfl
    rw [hm, jsLookup_cons, if_pos rfl]

theorem jsLookup_mapSet_ne (m : List (String × α)) (k : String) (v : α) (k' : String)
    (hne : k' ≠ k) : jsLookup (mapSet m k v) k' = jsLookup m k' := by
  unfold mapSet
  by_cases h : (m.find? (fun e => e.1 == k)).isSome
  · rw [if_pos h]
    simp only [beq_iff_eq]
    exact jsLookup_replaceMap_ne m k v k' hne
  · rw [if_neg h, jsLookup_append]
    cases hm : jsLookup m k' with
    | some v' => rfl
    | none =>
      rw [jsLookup_cons, if_neg (fun hk => hne hk.symm)]
      rfl

theorem foldl_mapSet_lookup_not_mem (tw : List (String × α)) (st : List (String × α))
    (m : String) (h : m ∉ tw.map Prod.fst) :
    jsLookup (tw.foldl (fun acc e => mapSet acc e.1 e.2) st) m = jsLookup st m := by
  induction tw generalizing st with
  | nil => rfl
  | cons e rest ih =>
    simp only [List.map_cons, List.mem_cons, not_or] at h
    rw [List.foldl_cons, ih _ h.2, jsLookup_mapSet_ne _ _ _ _ h.1]

theorem foldl_mapSet_lookup_mem (tw : List (String × α)) (st : List (String × α))
    (m : String) (t : α) (hmem : (m, t) ∈ tw) (hnodup : (tw.map Prod.fst).Nodup) :
    jsLookup (tw.foldl (fun acc e => mapSet acc e.1 e.2) st) m = some t := by
  induction tw generalizing st with
  | nil => cases hmem
  | cons e rest ih =>
    rw [List.map_cons, List.nodup_cons] at hnodup
    rcases List.mem_cons.mp hmem with heq | htail
    · subst heq
      rw [List.foldl_cons, foldl_mapSet_lookup_not_mem _ _ _ hnodup.1]
      exact jsLookup_mapSet_self _ _ _
    · rw [List.foldl_cons]
      exact ih _ htail hnodup.2

theorem allToolValues_length (tools : ToolRegistry) :
    (allToolValues tools).length = (tools.map (fun c => c.2.length)).sum := by
  induction tools with
  | nil => rfl
  | cons c rest ih =>
    simp only [allToolValues, List.map_cons, List.flatten_cons, List.length_append,
      List.length_map, List.sum_cons] at ih ⊢
    rw [ih]

theorem permFold_eq (tls : List (String × KTool)) (perms : List (String × List String))
    (grant : List (String × PermValue)) (init : List (Option KTool))
    (h : ∀ e ∈ grant, permGranted e.2 = true → (jsLookup perms e.1).isSome = true) :
    grant.foldl (permStep tls perms) (some init)
      = some (init ++ (grant.map (bucketContribution tls perms)).flatten) := by
  induction grant generalizing init with
  | nil => simp
  | cons e rest ih =>
    have hrest : ∀ x ∈ rest, permGranted x.2 = true → (jsLookup perms x.1).isSome = true :=
      fun x hx => h x (List.mem_cons_of_mem _ hx)
    rw [List.foldl_cons]
    by_cases hg : permGranted e.2 = true
    · obtain ⟨names, hn⟩ :=
        Option.isSome_iff_exists.mp (h e (List.mem_cons_self _ _) hg)
      have hstep : permStep tls perms (some init) e
          = some (init ++ names.map (fun toolName => jsLookup tls toolName)) := by
        simp [permStep, hg, hn]
      rw [hstep, ih _ hrest]
      simp [bucketContribution, hg, hn, List.append_assoc]
    · have hstep : permStep tls perms (some init) e = some init := by
        simp [permStep, hg]
      rw [hstep, ih _ hrest]
      simp [bucketContribution, hg]

theorem getToolsWithPermissionsIn_eq (tls : List (String × KTool))
    (perms : List (String × List String)) (grant : List (String × PermValue))
    (h : ∀ e ∈ grant, permGranted e.2 = true → (jsLookup perms e.1).isSome = true) :
    getToolsWithPermissionsIn tls perms grant
      = some ((grant.map (bucketContribution tls perms)).flatten) := by
  unfold getToolsWithPermissionsIn
  rw [permFold_eq tls perms grant [] h]
  rfl

theorem ungranted_contributions_nil (tls : List (String × KTool))
    (perms : List (String × List String)) (grant : List (String × PermValue))
    (h : ∀ e ∈ grant, permGranted e.2 = false) :
    (grant.map (bucketContribution tls perms)).flatten = [] := by
  induction grant with
  | nil => rfl
  | cons e rest ih =>
    rw [List.map_cons, List.flatten_cons]
    have he : bucketContribution tls perms e = [] := by
      simp [bucketContribution, h e (List.mem_cons_self _ _)]
    rw [he, List.nil_append]
    exact ih (fun x hx => h x (List.mem_cons_of_mem _ hx))

theorem selectWorkflows_some (keys : List String) (listing : List KWorkflow) :
    selectWorkflows (some keys) listing
      = listing.filter (fun w => keys.contains w.key) := by
  induction listing with
  | nil => rfl
  | cons w rest ih =>
    rw [List.filter_cons]
    by_cases h : keys.contains w.key
    · simp [selectWorkflows, h, ih]
    · simp [selectWorkflows, h, ih]

theorem requireHumanInput_eq (st : List (String × AiTool)) (tw : List (String × AiTool))
    (cfg : DeferredToolCallConfig) :
    requireHumanInput st tw cfg
      = (tw.foldl (fun acc e => mapSet acc e.1 e.2) st,
         tw.map (fun e => (e.1, wrapTool e.1 e.2 cfg))) := by
  have aux : ∀ (l : List (String × AiTool)) (s : List (String × AiTool))
      (acc : List (String × AiTool)),
      l.foldl (fun p entry =>
          (mapSet p.1 entry.1 entry.2, p.2 ++ [(entry.1, wrapTool entry.1 entry.2 cfg)]))
        (s, acc)
        = (l.foldl (fun a e => mapSet a e.1 e.2) s,
           acc ++ l.map (fun e => (e.1, wrapTool e.1 e.2 cfg))) := by
    intro l
    induction l with
    | nil => intro s acc; simp
    | cons e rest ih =>
      intro s acc
      rw [List.foldl_cons, ih, List.foldl_cons]
      simp
  unfold requireHumanInput
  rw [aux tw st []]
  simp

theorem contribMethods_of_granted (tls : List (String × KTool))
    (perms : List (String × List String)) (e : String × PermValue)
    (hg : permGranted e.2 = true) (bl : List String) (hn : jsLookup perms e.1 = some bl) :
    contribMethods tls perms e = lookedUpMethods tls bl := by
  simp [contribMethods, bucketContribution, lookedUpMethods, hg, hn]

theorem contribMethods_of_ungranted (tls : List (String × KTool))
    (perms : List (String × List String)) (e : String × PermValue)
    (hg : ¬permGranted e.2 = true) : contribMethods tls perms e = [] := by
  simp [contribMethods, bucketContribution, hg]

theorem contrib_flatten_nodup (tls : List (String × KTool))
    (perms : List (String × List String))
    (hnodupEach : ∀ b ∈ perms, (lookedUpMethods tls b.2).Nodup)
    (hdisj : ∀ b1 ∈ perms, ∀ b2 ∈ perms, b1.1 ≠ b2.1 →
        ∀ s ∈ lookedUpMethods tls b1.2, s ∉ lookedUpMethods tls b2.2)
    (grant : List (String × PermValue))
    (hkeys : (grant.map Prod.fst).Nodup)
    (hpresent : ∀ e ∈ grant, (jsLookup perms e.1).isSome = true) :
    ((grant.map (contribMethods tls perms)).flatten).Nodup := by
  induction grant with
  | nil => exact List.nodup_nil
  | cons e rest ih =>
    rw [List.map_cons, List.flatten_cons, List.nodup_append]
    rw [List.map_cons, List.nodup_cons] at hkeys
    refine ⟨?_, ?_, ?_⟩
    · by_cases hg : permGranted e.2 = true
      · obtain ⟨bl, hn⟩ :=
          Option.isSome_iff_exists.mp (hpresent e (List.mem_cons_self _ _))
        rw [contribMethods_of_granted tls perms e hg bl hn]
        exact hnodupEach (e.1, bl) (jsLookup_mem hn)
      · rw [contribMethods_of_ungranted tls perms e hg]
        exact List.nodup_nil
    · exact ih hkeys.2 (fun x hx => hpresent x (List.mem_cons_of_mem _ hx))
    · intro s hs hs'
      by_cases hg : permGranted e.2 = true
      · obtain ⟨bl, hn⟩ :=
          Option.isSome_iff_exists.mp (hpresent e (List.mem_cons_self _ _))
        rw [contribMethods_of_granted tls perms e hg bl hn] at hs
        obtain ⟨l, hl, hsl⟩ := List.mem_flatten.mp hs'
        obtain ⟨e', he', rfl⟩ := List.mem_map.mp hl
        by_cases hg' : permGranted e'.2 = true
        · obtain ⟨bl', hn'⟩ :=
            Option.isSome_iff_exists.mp (hpresent e' (List.mem_cons_of_mem _ he'))
          rw [contribMethods_of_granted tls perms e' hg' bl' hn'] at hsl
          have hne : e.1 ≠ e'.1 := by
            intro hcontra
            exact hkeys.1 (hcontra ▸ List.mem_map_of_mem Prod.fst he')
          exact hdisj (e.1, bl) (jsLookup_mem hn) (e'.1, bl') (jsLookup_mem hn') hne s hs hsl
        · rw [contribMethods_of_ungranted tls perms e' hg'] at hsl
          cases hsl
      · rw [contribMethods_of_ungranted tls perms e hg] at hs
        cases hs

/-! ## Claim theorems -/

/-- C8 counterexample: the all-descriptors flattening cannot fail. Applied
to two categories that define the same export key and the same method, the
object spread silently resolves the collision last-writer-wins: no error is
signalled (the operation's type has no error outcome at all) and the first
category's descriptor is silently lost. -/
theorem allTools_spread_silent_overwrite :
    jsSpreadAll [collideCatA, collideCatB]
      = [("sharedTool", ⟨"shared_method", "From category B"⟩)]
  ∧ (⟨"shared_method", "From category A"⟩ : KTool)
      ∉ (jsSpreadAll [collideCatA, collideCatB]).map Prod.snd := by
  decide

/-- C8 (amended): the `allTools` spread never signals an error; on a key
collision it would silently keep the later category's descriptor (see the
counterexample). In the shipped registry all 44 export keys are distinct and
all 44 method strings are distinct, so the flattened view equals the plain
concatenation of the category objects — each key maps to exactly one
descriptor and no category's descriptor is lost. -/
theorem allTools_flattening_lossless :
    allTools
      = broadcastsTools ++ channelsTools ++ commitsTools ++ documentationTools ++
        emailLayoutsTools ++ environmentsTools ++ guidesTools ++ messageTypesTools ++
        messagesTools ++ objectsTools ++ partialsTools ++ tenantsTools ++ usersTools ++
        workflowsTools
  ∧ (allTools.map Prod.fst).Nodup
  ∧ (allTools.map (fun e => e.2.method)).Nodup
  ∧ allTools.length = 44
  ∧ allTools.length = (knockTools.map (fun c => c.2.length)).sum := by
  decide

/-- C9: for every category name of the registry used as a bare pattern
(no dot, no tool part), `filterTools` neither throws nor returns the
category's descriptors: it returns the one-element list containing the
`undefined` result of indexing the category object with an undefined key
(coerced to the key `"undefined"`). -/
theorem filterTools_bare_category_undefined (c : String) (hc : c ∈ knockCategoryNames) :
    filterTools knockTools (some c) = Except.ok [none]
  ∧ [(none : Option KTool)]
      ≠ ((jsLookup knockTools c).getD []).map (fun e => some e.2) := by
  have big : ∀ x ∈ knockCategoryNames,
      filterTools knockTools (some x) = Except.ok [none]
      ∧ [(none : Option KTool)]
          ≠ ((jsLookup knockTools x).getD []).map (fun e => some e.2) := by
    decide
  exact big c hc

/-- Witness for C9 at the concrete category `"users"`. -/
theorem filterTools_bare_category_undefined_witness :
    "users" ∈ knockCategoryNames
  ∧ (filterTools knockTools (some "users") = Except.ok [none]
      ∧ [(none : Option KTool)]
          ≠ ((jsLookup knockTools "users").getD []).map (fun e => some e.2)) :=
  ⟨by decide, filterTools_bare_category_undefined "users" (by decide)⟩

/-- C6 counterexample: the singleton pattern `users.getUser` addresses the
descriptor by its registry export key, and the returned descriptor's
`method` field is `get_user`, not the named tool `getUser` — so the claim
that the element's method equals the input fails on the shipped registry. -/
theorem filterTools_singleton_method_mismatch :
    filterTools knockTools (some "users.getUser")
      = Except.ok [some ⟨"get_user", "Get user"⟩]
  ∧ ¬(⟨"get_user", "Get user"⟩ : KTool).method = "getUser" := by
  decide

/-- C4 counterexample: on a permission table whose granted buckets overlap
(the function is exercised against such injected tables by its unit tests),
the resolver concatenates without de-duplicating: the overlapping tool
appears once per granted bucket, so the output is not a duplicate-free
union. -/
theorem getToolsWithPermissions_overlap_duplicates :
    getToolsWithPermissionsIn overlapTools overlapPermissions overlapGrant
      = some [some ⟨"method_a", "Tool A"⟩, some ⟨"method_b", "Tool B"⟩,
              some ⟨"method_b", "Tool B"⟩]
  ∧ ¬((([some (⟨"method_a", "Tool A"⟩ : KTool), some ⟨"method_b", "Tool B"⟩,
          some ⟨"method_b", "Tool B"⟩].filterMap id).map KTool.method).Nodup) := by
  decide

/-- C10: with `hideUserData` set, the `get_user` and `upsert_user` executors
return exactly the `{ id }` projection of the fetched user — no email, name,
phone number or custom property flows into the result (the output is
identical for any two fetched users sharing an id); with `hideUserData`
`false` or absent, the full user object is returned unchanged. -/
theorem userTools_hide_user_data (config : KConfig) (u u' : KUser) :
    (config.hideUserData = some true →
      getUserExecute config u = UserToolResult.idOnly u.id
      ∧ createOrUpdateUserExecute config u = UserToolResult.idOnly u.id
      ∧ (u.id = u'.id → getUserExecute config u = getUserExecute config u'))
  ∧ (config.hideUserData = some false →
      getUserExecute config u = UserToolResult.fullUser u
      ∧ createOrUpdateUserExecute config u = UserToolResult.fullUser u)
  ∧ (config.hideUserData = none →
      getUserExecute config u = UserToolResult.fullUser u
      ∧ createOrUpdateUserExecute config u = UserToolResult.fullUser u) := by
  refine ⟨fun h => ⟨?_, ?_, fun hid => ?_⟩, fun h => ⟨?_, ?_⟩, fun h => ⟨?_, ?_⟩⟩ <;>
    simp [getUserExecute, createOrUpdateUserExecute, maybeHideUserData, *]

/-- Witness for C10 at a concrete config and two concrete users sharing an
id but differing in every other field. -/
theorem userTools_hide_user_data_witness :
    ((⟨none, none, none, some true⟩ : KConfig).hideUserData = some true)
  ∧ getUserExecute ⟨none, none, none, some true⟩
      ⟨"user_1", some "a@example.com", some "Ann", some "555", [("plan", "pro")]⟩
      = UserToolResult.idOnly "user_1"
  ∧ getUserExecute ⟨none, none, none, some true⟩
      ⟨"user_1", some "a@example.com", some "Ann", some "555", [("plan", "pro")]⟩
      = getUserExecute ⟨none, none, none, some true⟩ ⟨"user_1", none, none, none, []⟩
  ∧ getUserExecute ⟨none, none, none, none⟩ ⟨"user_1", some "a@example.com", none, none, []⟩
      = UserToolResult.fullUser ⟨"user_1", some "a@example.com", none, none, []⟩ := by
  have h1 := userTools_hide_user_data (⟨none, none, none, some true⟩ : KConfig)
    ⟨"user_1", some "a@example.com", some "Ann", some "555", [("plan", "pro")]⟩
    ⟨"user_1", none, none, none, []⟩
  have h2 := userTools_hide_user_data (⟨none, none, none, none⟩ : KConfig)
    ⟨"user_1", some "a@example.com", none, none, []⟩
    ⟨"user_1", none, none, none, []⟩
  exact ⟨rfl, (h1.1 rfl).1, (h1.1 rfl).2.2 rfl, (h2.2.2 rfl).1⟩

/-- C1: a trigger grant carrying a key allow-list synthesizes exactly one
descriptor per listed workflow whose key was requested (in listing order)
and none for unrequested ones; each descriptor's method is derived
deterministically from the workflow key and its executor closes over that
workflow. In the concrete scenario of the claim — requested keys `k1, k2`
against a listing `k1, k2, k3` — exactly 2 descriptors are synthesized,
with methods `trigger_k1_workflow` and `trigger_k2_workflow`. -/
theorem createWorkflowTools_synthesizes_requested (listing : List KWorkflow)
    (ks : List String) (w : KWorkflow) (cfg : KConfig) (params : WTriggerParams) :
    (createWorkflowTools listing (some ks)
      = (listing.filter (fun wf => ks.contains wf.key)).map workflowAsTool)
  ∧ ((workflowAsTool w).method
      = "trigger_" ++ jsReplaceFirst w.key '-' '_' ++ "_workflow")
  ∧ (((workflowAsTool w).execute cfg params).key = w.key)
  ∧ ((createWorkflowTools
        [⟨"k1", "Workflow one", none⟩, ⟨"k2", "Workflow two", none⟩,
         ⟨"k3", "Workflow three", none⟩] (some ["k1", "k2"])).length = 2)
  ∧ ((createWorkflowTools
        [⟨"k1", "Workflow one", none⟩, ⟨"k2", "Workflow two", none⟩,
         ⟨"k3", "Workflow three", none⟩] (some ["k1", "k2"])).map WTool.method
      = ["trigger_k1_workflow", "trigger_k2_workflow"]) := by
  refine ⟨?_, rfl, rfl, rfl, ?_⟩
  · unfold createWorkflowTools
    rw [selectWorkflows_some]
  · simp [createWorkflowTools, selectWorkflows, workflowAsTool, jsReplaceFirst,
      replaceFirstChar]

/-- C2: a tool wrapped by `requireHumanInput` never invokes the underlying
executor — the installed executor depends only on the method name and the
HITL input config (it is literally the same function whatever the original
tool was); one invocation triggers the external approval workflow carrying
the `DeferredToolCall {method, args, extra}` payload and immediately returns
the pending status object with the invocation's `toolCallId`. -/
theorem requireHumanInput_defers_without_executing (m : String) (t t2 : AiTool)
    (cfg : DeferredToolCallConfig) (input : ToolArgs) (options : ToolExecutionOptions)
    (st tw : List (String × AiTool)) :
    ((wrapTool m t cfg).execute = some (wrappedExecute m cfg))
  ∧ ((wrappedExecute m cfg input options).2 = ToolValue.pendingStatus options.toolCallId)
  ∧ ((wrappedExecute m cfg input options).1
      = triggerHumanInTheLoopWorkflow ⟨m, input, ⟨options.toolCallId⟩⟩ cfg)
  ∧ (Effect.workflowTrigger cfg.workflow
        ⟨"deferred_tool_call", ⟨m, input, ⟨options.toolCallId⟩⟩, cfg.metadata⟩
        cfg.recipients cfg.tenant cfg.actor
      ∈ (wrappedExecute m cfg input options).1)
  ∧ ((wrapTool m t cfg).execute = (wrapTool m t2 cfg).execute)
  ∧ ((requireHumanInput st tw cfg).2 = tw.map (fun e => (e.1, wrapTool e.1 e.2 cfg))) := by
  refine ⟨rfl, rfl, rfl, ?_, rfl, ?_⟩
  · unfold wrappedExecute triggerHumanInTheLoopWorkflow
    simp
  · rw [requireHumanInput_eq]

/-- C3: resuming a `DeferredToolCall` whose method was wrapped runs the
original (unwrapped) executor on the recovered `args` and `extra` and
packages its result as a completed status carrying the deferred call's own
`toolCallId`; resuming a method that was never wrapped (absent from the
side table before and after wrapping) fails with the deferred-call-not-found
error, and no executor output appears. -/
theorem resumeToolExecution_runs_original_or_fails
    (st0 tw : List (String × AiTool)) (cfg : DeferredToolCallConfig)
    (t : AiTool) (f : ToolArgs → ToolExecutionOptions → List Effect × ToolValue)
    (dc dc2 : DeferredToolCall) :
    ((dc.method, t) ∈ tw → (tw.map Prod.fst).Nodup → t.execute = some f →
      resumeToolExecution (requireHumanInput st0 tw cfg).1 dc
        = Except.ok ((f dc.args dc.extra).1,
            ToolValue.completedStatus dc.extra.toolCallId (f dc.args dc.extra).2))
  ∧ (dc2.method ∉ tw.map Prod.fst → jsLookup st0 dc2.method = none →
      resumeToolExecution (requireHumanInput st0 tw cfg).1 dc2
        = Except.error (ResumeError.deferredCallNotFound dc2.method)) := by
  constructor
  · intro hmem hnodup hexec
    have hlook : jsLookup (requireHumanInput st0 tw cfg).1 dc.method = some t := by
      rw [requireHumanInput_eq]
      exact foldl_mapSet_lookup_mem tw st0 dc.method t hmem hnodup
    simp [resumeToolExecution, hlook, hexec]
  · intro hnm hst
    have hlook : jsLookup (requireHumanInput st0 tw cfg).1 dc2.method = none := by
      rw [requireHumanInput_eq]
      rw [foldl_mapSet_lookup_not_mem tw st0 dc2.method hnm]
      exact hst
    simp [resumeToolExecution, hlook]

/-- Witness for C3: wrapping the concrete tool `toolX` and resuming a
matching deferred call runs the original executor (its opaque effect and
result appear) under a completed status with the call's correlation id;
resuming the unwrapped method `toolY` fails. -/
theorem resumeToolExecution_runs_original_or_fails_witness :
    (hitlDeferredCall.method, hitlOriginalTool) ∈ [("toolX", hitlOriginalTool)]
  ∧ (([("toolX", hitlOriginalTool)].map Prod.fst).Nodup)
  ∧ hitlUnknownCall.method ∉ [("toolX", hitlOriginalTool)].map Prod.fst
  ∧ jsLookup ([] : List (String × AiTool)) hitlUnknownCall.method = none
  ∧ resumeToolExecution
      (requireHumanInput [] [("toolX", hitlOriginalTool)] hitlConfig).1 hitlDeferredCall
      = Except.ok ([Effect.opaqueEffect 1],
          ToolValue.completedStatus "call_1" (ToolValue.raw "executed"))
  ∧ resumeToolExecution
      (requireHumanInput [] [("toolX", hitlOriginalTool)] hitlConfig).1 hitlUnknownCall
      = Except.error (ResumeError.deferredCallNotFound "toolY") := by
  have h := resumeToolExecution_runs_original_or_fails [] [("toolX", hitlOriginalTool)]
    hitlConfig hitlOriginalTool
    (fun _ _ => ([Effect.opaqueEffect 1], ToolValue.raw "executed"))
    hitlDeferredCall hitlUnknownCall
  refine ⟨List.mem_cons_self _ _, by simp, by simp [hitlUnknownCall], rfl, ?_, ?_⟩
  · exact h.1 (List.mem_cons_self _ _) (by simp) rfl
  · exact h.2 (by simp [hitlUnknownCall]) rfl

theorem filterMap_map_flatten (L : List (List (Option KTool))) :
    (L.flatten.filterMap id).map KTool.method
      = (L.map (fun x => (x.filterMap id).map KTool.method)).flatten := by
  induction L with
  | nil => rfl
  | cons x xs ih =>
    simp only [List.flatten_cons, List.filterMap_append, List.map_append, List.map_cons,
      ih]

/-- C4 (amended): the resolver concatenates the contributions of the
granted buckets in grant order, without de-duplicating (a method listed in
several granted buckets would appear once per bucket, as the counterexample
shows on an overlapping table). On the shipped permission tables every
bucket list is duplicate-free and any two buckets of one category are
disjoint, so each resolved list's methods are pairwise distinct. -/
theorem getToolsWithPermissions_concat_disjoint (category : String)
    (hc : category ∈ knockCategoryNames) (grant : List (String × PermValue))
    (hkeys : (grant.map Prod.fst).Nodup)
    (hpresent : grant.all (fun e =>
        (jsLookup ((jsLookup knockToolPermissions category).getD []) e.1).isSome) = true) :
    getToolsWithPermissions category grant
      = some ((grant.map (bucketContribution ((jsLookup knockTools category).getD [])
            ((jsLookup knockToolPermissions category).getD []))).flatten)
  ∧ ((((grant.map (bucketContribution ((jsLookup knockTools category).getD [])
          ((jsLookup knockToolPermissions category).getD []))).flatten.filterMap id).map
        KTool.method).Nodup) := by
  have hpresent' : ∀ e ∈ grant,
      (jsLookup ((jsLookup knockToolPermissions category).getD []) e.1).isSome = true :=
    fun e he => by simpa using List.all_eq_true.mp hpresent e he
  constructor
  · unfold getToolsWithPermissions
    exact getToolsWithPermissionsIn_eq _ _ grant (fun e he _ => hpresent' e he)
  · have tf : ∀ c ∈ knockCategoryNames,
        (∀ b ∈ (jsLookup knockToolPermissions c).getD [],
          (lookedUpMethods ((jsLookup knockTools c).getD []) b.2).Nodup)
        ∧ (∀ b1 ∈ (jsLookup knockToolPermissions c).getD [],
            ∀ b2 ∈ (jsLookup knockToolPermissions c).getD [], b1.1 ≠ b2.1 →
              ∀ s ∈ lookedUpMethods ((jsLookup knockTools c).getD []) b1.2,
                s ∉ lookedUpMethods ((jsLookup knockTools c).getD []) b2.2) := by
      decide
    have hx : ((grant.map (contribMethods ((jsLookup knockTools category).getD [])
        ((jsLookup knockToolPermissions category).getD []))).flatten).Nodup :=
      contrib_flatten_nodup _ _ (tf category hc).1 (tf category hc).2 grant hkeys hpresent'
    rw [filterMap_map_flatten, List.map_map]
    have hcomp : (fun x => (x.filterMap id).map KTool.method) ∘
        bucketContribution ((jsLookup knockTools category).getD [])
          ((jsLookup knockToolPermissions category).getD [])
        = contribMethods ((jsLookup knockTools category).getD [])
          ((jsLookup knockToolPermissions category).getD []) := by
      funext e
      rfl
    rw [hcomp]
    exact hx

/-- Witness for C4 (amended) at the category `users` with both buckets
granted. -/
theorem getToolsWithPermissions_concat_disjoint_witness :
    "users" ∈ knockCategoryNames
  ∧ ((([("read", PermValue.bool true), ("manage", PermValue.bool true)]
        : List (String × PermValue)).map Prod.fst).Nodup)
  ∧ getToolsWithPermissions "users"
      [("read", PermValue.bool true), ("manage", PermValue.bool true)]
      = some (([("read", PermValue.bool true), ("manage", PermValue.bool true)].map
          (bucketContribution ((jsLookup knockTools "users").getD [])
            ((jsLookup knockToolPermissions "users").getD []))).flatten)
  ∧ (((([("read", PermValue.bool true), ("manage", PermValue.bool true)].map
        (bucketContribution ((jsLookup knockTools "users").getD [])
          ((jsLookup knockToolPermissions "users").getD []))).flatten.filterMap id).map
        KTool.method).Nodup) := by
  have h := getToolsWithPermissions_concat_disjoint "users" (by decide)
    [("read", PermValue.bool true), ("manage", PermValue.bool true)] (by decide) (by decide)
  exact ⟨by decide, by decide, h.1, h.2⟩

/-- C5: on the shipped registry, a bucket granted `true` contributes exactly
the methods listed for that bucket, in list order; every shipped bucket list
is duplicate-free and every listed name resolves to a descriptor of the
category; and a grant in which every bucket is `false`, `undefined`, or an
empty list resolves to the empty list. -/
theorem getToolsWithPermissions_bucket_semantics
    (category bucket : String) (bucketList : List String)
    (hc : category ∈ knockCategoryNames)
    (hb : (bucket, bucketList) ∈ (jsLookup knockToolPermissions category).getD [])
    (grant : List (String × PermValue))
    (hng : grant.all (fun e => !permGranted e.2) = true) :
    getToolsWithPermissions category [(bucket, PermValue.bool true)]
      = some (bucketList.map (fun n => jsLookup ((jsLookup knockTools category).getD []) n))
  ∧ bucketList.Nodup
  ∧ bucketList.all
      (fun n => (jsLookup ((jsLookup knockTools category).getD []) n).isSome) = true
  ∧ getToolsWithPermissions category grant = some [] := by
  have tableFacts : ∀ c ∈ knockCategoryNames,
      ∀ b ∈ (jsLookup knockToolPermissions c).getD [],
        getToolsWithPermissions c [(b.1, PermValue.bool true)]
          = some (b.2.map (fun n => jsLookup ((jsLookup knockTools c).getD []) n))
        ∧ b.2.Nodup
        ∧ b.2.all (fun n => (jsLookup ((jsLookup knockTools c).getD []) n).isSome) = true := by
    decide
  have hfacts := tableFacts category hc (bucket, bucketList) hb
  refine ⟨hfacts.1, hfacts.2.1, hfacts.2.2, ?_⟩
  unfold getToolsWithPermissions
  rw [getToolsWithPermissionsIn_eq]
  · rw [ungranted_contributions_nil]
    intro e he
    simpa using List.all_eq_true.mp hng e he
  · intro e he hg
    have := List.all_eq_true.mp hng e he
    simp [hg] at this

/-- Witness for C5 at the `users` category: the `read` bucket grants
exactly its three listed tools, and an all-denied grant is empty. -/
theorem getToolsWithPermissions_bucket_semantics_witness :
    "users" ∈ knockCategoryNames
  ∧ ("read", ["getUser", "getUserMessages", "getUserPreferences"])
      ∈ (jsLookup knockToolPermissions "users").getD []
  ∧ ([("read", PermValue.bool false), ("manage", PermValue.undef)].all
      (fun e => !permGranted e.2) = true)
  ∧ getToolsWithPermissions "users" [("read", PermValue.bool true)]
      = some ([ "getUser", "getUserMessages", "getUserPreferences" ].map
          (fun n => jsLookup ((jsLookup knockTools "users").getD []) n))
  ∧ (["getUser", "getUserMessages", "getUserPreferences"] : List String).Nodup
  ∧ getToolsWithPermissions "users"
      [("read", PermValue.bool false), ("manage", PermValue.undef)] = some [] := by
  have h := getToolsWithPermissions_bucket_semantics "users" "read"
    ["getUser", "getUserMessages", "getUserPreferences"] (by decide) (by decide)
    [("read", PermValue.bool false), ("manage", PermValue.undef)] (by decide)
  exact ⟨by decide, by decide, by decide, h.1, h.2.1, h.2.2.2⟩

/-- C6 (amended): `*` and `*.*` both return the full flattened descriptor
set, whose length is the sum of all category sizes; `category.*` for a known
category returns exactly that category's descriptors in declaration order;
and `category.key` for a registered pair returns the one-element list
containing the descriptor registered under that key — whose `method` field
is the descriptor's own machine name, which in the shipped registry differs
from the registry key (see the counterexample). -/
theorem filterTools_wellformed_patterns (tools : ToolRegistry)
    (p c1 : String) (cat1 : CategoryTools)
    (q c2 k2 : String) (cat2 : CategoryTools) (t : KTool) :
    (filterTools tools (some "*") = Except.ok ((allToolValues tools).map Option.some))
  ∧ ((allToolValues tools).length = (tools.map (fun c => c.2.length)).sum)
  ∧ (filterTools tools (some "*.*") = Except.ok ((allToolValues tools).map Option.some))
  ∧ (jsSplitDot p = [c1, "*"] → c1 ≠ "" → c1 ≠ "*" → p ≠ "" → p ≠ "*" →
      jsLookup tools c1 = some cat1 →
      filterTools tools (some p) = Except.ok (cat1.map (fun e => some e.2)))
  ∧ (jsSplitDot q = [c2, k2] → c2 ≠ "" → k2 ≠ "" → k2 ≠ "*" → q ≠ "" → q ≠ "*" →
      jsLookup tools c2 = some cat2 → jsLookup cat2 k2 = some t →
      filterTools tools (some q) = Except.ok [some t]) := by
  refine ⟨rfl, allToolValues_length tools, rfl, ?_, ?_⟩
  · intro hsplit hc0 hcstar hp0 hp1 hlook
    simp [filterTools, hsplit, hp0, hp1, hc0, hcstar, hlook]
  · intro hsplit hc0 hk0 hkstar hq0 hq1 hlookc hlookt
    simp [filterTools, hsplit, hq0, hq1, hc0, hk0, hkstar, hlookc, hlookt,
      jsTruthy, jsIndexKey]

/-- Witness for C6 (amended) on the shipped registry: `users.*` yields the
five user descriptors and `messages.getMessage` yields the descriptor
registered under that key. -/
theorem filterTools_wellformed_patterns_witness :
    (filterTools knockTools (some "*")
      = Except.ok ((allToolValues knockTools).map Option.some))
  ∧ ((allToolValues knockTools).length
      = (knockTools.map (fun c => c.2.length)).sum)
  ∧ (filterTools knockTools (some "*.*")
      = Except.ok ((allToolValues knockTools).map Option.some))
  ∧ (filterTools knockTools (some "users.*")
      = Except.ok (usersTools.map (fun e => some e.2)))
  ∧ (filterTools knockTools (some "messages.getMessage")
      = Except.ok [some ⟨"get_message", "Get message"⟩]) := by
  have h := filterTools_wellformed_patterns knockTools "users.*" "users" usersTools
    "messages.getMessage" "messages" "getMessage" messagesTools
    ⟨"get_message", "Get message"⟩
  refine ⟨h.1, h.2.1, h.2.2.1, ?_, ?_⟩
  · exact h.2.2.2.1 (by decide) (by decide) (by decide) (by decide) (by decide) (by decide)
  · exact h.2.2.2.2 (by decide) (by decide) (by decide) (by decide) (by decide) (by decide)
      (by decide) (by decide)

/-- C7: an absent or empty pattern fails with the no-pattern-provided
error; a pattern whose category part is not in the registry fails with a
category-not-found error naming that category (whether or not a tool part is
present); and a pattern naming a known category with an unknown, non-empty,
non-wildcard tool part fails with a tool-not-found error naming the full
pattern. In every failing case the result is an error, never a descriptor
list. -/
theorem filterTools_error_cases (tools : ToolRegistry)
    (p c1 : String) (toolPart : Option String)
    (q c2 k2 : String) (cat2 : CategoryTools) :
    (filterTools tools none = Except.error FilterError.noPatternProvided)
  ∧ (filterTools tools (some "") = Except.error FilterError.noPatternProvided)
  ∧ (jsSplitDot p = c1 :: toolPart.toList → c1 ≠ "" → p ≠ "" → p ≠ "*" →
      ¬(c1 = "*" ∧ toolPart = some "*") → jsLookup tools c1 = none →
      filterTools tools (some p) = Except.error (FilterError.categoryNotFound c1))
  ∧ (jsSplitDot q = [c2, k2] → c2 ≠ "" → k2 ≠ "" → k2 ≠ "*" → q ≠ "" → q ≠ "*" →
      jsLookup tools c2 = some cat2 → jsLookup cat2 k2 = none →
      filterTools tools (some q) = Except.error (FilterError.toolNotFound q)) := by
  refine ⟨rfl, rfl, ?_, ?_⟩
  · intro hsplit hc0 hp0 hp1 hcstar hlook
    have hidx : (c1 :: toolPart.toList)[1]? = toolPart := by
      cases toolPart <;> rfl
    simp only [filterTools, hsplit, List.headD_cons, hidx]
    rw [if_neg hp0, if_neg hp1, if_neg hcstar, if_pos ⟨hc0, hlook⟩]
  · intro hsplit hc0 hk0 hkstar hq0 hq1 hlookc hlookt
    simp [filterTools, hsplit, hq0, hq1, hc0, hk0, hkstar, hlookc, hlookt,
      jsTruthy, jsIndexKey]

/-- Witness for C7: the empty and absent patterns, an unknown category in
bare and dotted form, and a known category with an unknown tool, all on the
shipped registry. -/
theorem filterTools_error_cases_witness :
    (filterTools knockTools none = Except.error FilterError.noPatternProvided)
  ∧ (filterTools knockTools (some "") = Except.error FilterError.noPatternProvided)
  ∧ (filterTools knockTools (some "nonexistent.*")
      = Except.error (FilterError.categoryNotFound "nonexistent"))
  ∧ (filterTools knockTools (some "users.nonexistent")
      = Except.error (FilterError.toolNotFound "users.nonexistent")) := by
  have h := filterTools_error_cases knockTools "nonexistent.*" "nonexistent" (some "*")
    "users.nonexistent" "users" "nonexistent" usersTools
  refine ⟨h.1, h.2.1, ?_, ?_⟩
  · exact h.2.2.1 (by decide) (by decide) (by decide) (by decide) (by decide) (by decide)
  · exact h.2.2.2 (by decide) (by decide) (by decide) (by decide) (by decide) (by decide)
      (by decide) (by decide)

end AgentToolkit
